import Mathlib

/-!
# Soft Power Switch Mk2 — verification of the example sketch

Shallow embedding of `Examples/SoftPowerSwitchMk2_Example/SoftPowerSwitchMk2_Example.ino`.

Modelling conventions:
* Time is the value of `millis()`, a `Nat`.  Time advances only through
  `delay(d)` (by exactly `d` ms); reads and serial prints take no time.  The
  sketch's `unsigned long` arithmetic coincides with `Nat` arithmetic here:
  all durations involved are a few thousand ms, far below the 2^32 wrap, and
  `millis() - powerPressedStartTime` is only ever evaluated with
  `millis() ≥ powerPressedStartTime`, so truncated `Nat` subtraction agrees
  with the unsigned subtraction of the source.
* The PUSH pin is an input trace `push : Nat → Level` giving the electrical
  level at each millisecond; `digitalRead(_PUSH)` at time `t` is `push t`.
* Serial output is ignored (it has no effect on control flow or pins).
* The unbounded `while` loops of the `'r'` console command are modelled with
  an explicit fuel returning `Option` (`none` = the loop has not exited within
  `fuel` ms), and `powerDown`'s `while (1)` loop as an explicit step function
  on the terminal state, as an infinite loop has no direct total encoding.
-/

/-- Electrical level of a digital pin.  On the PUSH pad, `LOW` means the
button is pressed (open-drain, pulled up) and `HIGH` means released. -/
inductive Level where
  | LOW
  | HIGH
deriving DecidableEq

/-- The PUSH input as a function of time (ms). -/
def Trace : Type := Nat → Level

/-- `int debounceDelay = 20;` (line 33). -/
def debounceDelay : Nat := 20

/-- The observable machine state: current time (`millis()`), the global
`unsigned long powerPressedStartTime` (line 31), the OFF output pin
(`true` = driven high = power-off requested) and the status LED. -/
structure MState where
  now : Nat
  powerPressedStartTime : Nat
  offHigh : Bool
  statLed : Bool
deriving DecidableEq

/-- `powerDown()` entry (lines 157-168): status LED low, stamp
`powerPressedStartTime = millis()`, drive OFF high.  The subsequent
`while (1)` loop is modelled by `powerDownStep`. -/
def powerDown (s : MState) : MState :=
  { s with statLed := false, powerPressedStartTime := s.now, offHigh := true }

/-- One iteration of the terminal `while (1) { delay(1); }` loop inside
`powerDown()` (lines 170-176): only time advances. -/
def powerDownStep (s : MState) : MState :=
  { s with now := s.now + 1 }

/-- The guard of `while (1)` in `powerDown()`: the constant `1`, which is
nonzero, i.e. the loop condition always holds and control never leaves. -/
def powerDownLoopCond : Bool := (1 : Nat) != 0

/-- Result of one invocation of `loop()`: either `loop()` returned normally
(and will be called again with state `s`), or `powerDown()` was entered and
control is stuck in its terminal loop with state `s`. -/
inductive LoopResult where
  | next (s : MState)
  | halted (s : MState)
deriving DecidableEq

/-- The button-handling chain of `loop()` (lines 120-153), i.e. one poll with
the serial buffer empty.

* lines 120-129: PUSH low, no timer running — debounce `delay(debounceDelay)`,
  re-sample, and start the timer (`powerPressedStartTime = millis()`) only if
  still low;
* lines 130-141: PUSH low, timer running — debounce, re-sample, and if still
  low call `powerDown()` when `millis() - powerPressedStartTime > 2000`;
* lines 143-153: PUSH high, timer running — debounce, re-sample (the
  re-sample guards only the serial print of the held duration), then reset
  `powerPressedStartTime = 0` unconditionally (line 152 is outside the
  re-sample `if`);
* otherwise (PUSH high, no timer): nothing happens.

The chained `else if` conditions re-read `digitalRead(_PUSH)` but no time has
passed since the first read, so each condition reads `push s.now`. -/
def buttonPoll (push : Trace) (s : MState) : LoopResult :=
  if push s.now = Level.LOW ∧ s.powerPressedStartTime = 0 then
    let t := s.now + debounceDelay
    if push t = Level.LOW then
      LoopResult.next { s with now := t, powerPressedStartTime := t }
    else
      LoopResult.next { s with now := t }
  else if push s.now = Level.LOW ∧ s.powerPressedStartTime > 0 then
    let t := s.now + debounceDelay
    if push t = Level.LOW then
      if t - s.powerPressedStartTime > 2000 then
        LoopResult.halted (powerDown { s with now := t })
      else
        LoopResult.next { s with now := t }
    else
      LoopResult.next { s with now := t }
  else if push s.now = Level.HIGH ∧ s.powerPressedStartTime > 0 then
    let t := s.now + debounceDelay
    LoopResult.next { s with now := t, powerPressedStartTime := 0 }
  else
    LoopResult.next s

/-- `k` successive invocations of `loop()` with an empty serial buffer.
Once `powerDown()` has been entered the result stays `halted`. -/
def run (push : Trace) (s : MState) : Nat → LoopResult
  | 0 => LoopResult.next s
  | k + 1 =>
    match run push s k with
    | LoopResult.next s' => buttonPoll push s'
    | LoopResult.halted s' => LoopResult.halted s'

/-- The power-on confirmation loop of `setup()` (lines 50-60), entered at
sample index `i` (time `boot + 100 * i`, where `boot` is the value of
`millis()` stored into `powerPressedStartTime` at line 49).  Each iteration:
if PUSH reads low, `delay(100)` and break once
`millis() - powerPressedStartTime > 500`; if PUSH reads high the `while`
condition fails.  Returns the value of `millis()` when the loop exits. -/
def confirmLoopFrom (push : Trace) (boot : Nat) (i : Nat) : Nat :=
  if push (boot + 100 * i) = Level.LOW then
    if 100 * (i + 1) > 500 then boot + 100 * (i + 1)
    else confirmLoopFrom push boot (i + 1)
  else boot + 100 * i
termination_by 6 - i
decreasing_by omega

/-- Result of `setup()`: either `powerDown()` was entered (accidental tap) or
the sketch reaches normal operation (`loop()` will start being called). -/
inductive SetupResult where
  | poweredDown (s : MState)
  | running (s : MState)
deriving DecidableEq

/-- `setup()` (lines 38-83), booting at time `boot` (the `millis()` stored at
line 49).  Runs the confirmation loop; if afterwards
`millis() - powerPressedStartTime < 500` it calls `powerDown()` (line 66),
otherwise it resets `powerPressedStartTime = 0` (line 70) and turns the
status LED on (line 75), entering normal operation. -/
def setup (push : Trace) (boot : Nat) : SetupResult :=
  let tExit := confirmLoopFrom push boot 0
  if tExit - boot < 500 then
    SetupResult.poweredDown
      (powerDown { now := tExit, powerPressedStartTime := boot,
                   offHigh := false, statLed := false })
  else
    SetupResult.running
      { now := tExit, powerPressedStartTime := 0,
        offHigh := false, statLed := true }

/-- First loop of the `'r'` console command (lines 101-102):
`while (digitalRead(_PUSH) == HIGH) delay(1);` starting at time `now`.
Returns `some t` with `t` the first instant `≥ now` at which PUSH reads low,
provided that happens within `fuel` ms; `none` if the loop is still spinning
after `fuel` checks. -/
def lockWaitPress (push : Trace) : Nat → Nat → Option Nat
  | 0, _ => none
  | fuel + 1, now =>
    if push now = Level.LOW then some now
    else lockWaitPress push fuel (now + 1)

/-- Second loop of the `'r'` console command (lines 106-114):
`while (1) { delay(1); if (digitalRead(_PUSH) == HIGH) break; }`.  The first
check happens after a `delay(1)`, so the caller passes `now = t + 1` where
`t` is the time the press was observed.  Returns `some r` with `r` the first
instant `≥ now` at which PUSH reads high, if within `fuel` ms. -/
def lockWaitRelease (push : Trace) : Nat → Nat → Option Nat
  | 0, _ => none
  | fuel + 1, now =>
    if push now = Level.HIGH then some now
    else lockWaitRelease push fuel (now + 1)

/-- The `'r'` console command handler (lines 96-117): wait for the button to
be pressed, stamp `powerPressedStartTime = millis()` (line 104), wait for the
button to be released, then reset `powerPressedStartTime = 0` (line 116) and
return to the rest of `loop()`.  `none` when one of the two waits exceeds its
fuel (the loop has not exited yet). -/
def serialRCmd (push : Trace) (fuel₁ fuel₂ : Nat) (s : MState) : Option MState :=
  match lockWaitPress push fuel₁ s.now with
  | none => none
  | some t =>
    match lockWaitRelease push fuel₂ (t + 1) with
    | none => none
    | some r => some { s with now := r, powerPressedStartTime := 0 }

/-- A button that is pressed (PUSH low) at every instant. -/
def alwaysPressed : Trace := fun _ => Level.LOW

/-- A tap: pressed until ms 150, released from ms 150 on. -/
def tapTrace : Trace := fun t => if t < 150 then Level.LOW else Level.HIGH

/-- A short press: pressed until ms 120, released from ms 120 on. -/
def shortPressTrace : Trace := fun t => if t < 120 then Level.LOW else Level.HIGH

/-- Pressed at every instant except a 1 ms release glitch at ms 1000. -/
def glitchTrace : Trace := fun t => if t = 1000 then Level.HIGH else Level.LOW

/-- Pressed at every instant except a release glitch at ms 20. -/
def glitch20Trace : Trace := fun t => if t = 20 then Level.HIGH else Level.LOW

/-- Released, pressed during [5, 9), released again from ms 9 on. -/
def lockTrace : Trace :=
  fun t => if t < 5 then Level.HIGH else if t < 9 then Level.LOW else Level.HIGH

/-- One invocation of `loop()` (lines 85-154) given the pending serial byte
(`none` = `Serial.available()` is false).  `'z'` calls `powerDown()`
(lines 91-95); `'r'` runs the lock-mode handler and then falls through to the
button chain; any other byte falls through directly. -/
def loopOnce (push : Trace) (fuel₁ fuel₂ : Nat) (serial : Option Char)
    (s : MState) : Option LoopResult :=
  match serial with
  | none => some (buttonPoll push s)
  | some incoming =>
    if incoming = 'z' then
      some (LoopResult.halted (powerDown s))
    else if incoming = 'r' then
      match serialRCmd push fuel₁ fuel₂ s with
      | none => none
      | some s' => some (buttonPoll push s')
    else
      some (buttonPoll push s)

/-! ## Basic lemmas about one poll of the button chain -/

theorem poll_start (push : Trace) (s : MState)
    (h0 : s.powerPressedStartTime = 0) (h1 : push s.now = Level.LOW)
    (h2 : push (s.now + debounceDelay) = Level.LOW) :
    buttonPoll push s =
      LoopResult.next { s with now := s.now + debounceDelay,
                               powerPressedStartTime := s.now + debounceDelay } := by
  simp [buttonPoll, h0, h1, h2]

theorem poll_start_glitch (push : Trace) (s : MState)
    (h0 : s.powerPressedStartTime = 0) (h1 : push s.now = Level.LOW)
    (h2 : push (s.now + debounceDelay) = Level.HIGH) :
    buttonPoll push s = LoopResult.next { s with now := s.now + debounceDelay } := by
  simp [buttonPoll, h0, h1, h2]

theorem poll_hold (push : Trace) (s : MState)
    (h0 : s.powerPressedStartTime ≠ 0) (h1 : push s.now = Level.LOW)
    (h2 : push (s.now + debounceDelay) = Level.LOW)
    (hle : s.now + debounceDelay - s.powerPressedStartTime ≤ 2000) :
    buttonPoll push s = LoopResult.next { s with now := s.now + debounceDelay } := by
  have hpos : s.powerPressedStartTime > 0 := Nat.pos_of_ne_zero h0
  simp [buttonPoll, h0, h1, h2, hpos, Nat.not_lt.mpr hle]

theorem poll_trigger (push : Trace) (s : MState)
    (h0 : s.powerPressedStartTime ≠ 0) (h1 : push s.now = Level.LOW)
    (h2 : push (s.now + debounceDelay) = Level.LOW)
    (hgt : s.now + debounceDelay - s.powerPressedStartTime > 2000) :
    buttonPoll push s =
      LoopResult.halted (powerDown { s with now := s.now + debounceDelay }) := by
  have hpos : s.powerPressedStartTime > 0 := Nat.pos_of_ne_zero h0
  simp [buttonPoll, h0, h1, h2, hpos, hgt]

theorem poll_hold_glitch (push : Trace) (s : MState)
    (h0 : s.powerPressedStartTime ≠ 0) (h1 : push s.now = Level.LOW)
    (h2 : push (s.now + debounceDelay) = Level.HIGH) :
    buttonPoll push s = LoopResult.next { s with now := s.now + debounceDelay } := by
  have hpos : s.powerPressedStartTime > 0 := Nat.pos_of_ne_zero h0
  simp [buttonPoll, h0, h1, h2, hpos]

theorem poll_release (push : Trace) (s : MState)
    (h0 : s.powerPressedStartTime ≠ 0) (h1 : push s.now = Level.HIGH) :
    buttonPoll push s =
      LoopResult.next { s with now := s.now + debounceDelay,
                               powerPressedStartTime := 0 } := by
  have hpos : s.powerPressedStartTime > 0 := Nat.pos_of_ne_zero h0
  simp [buttonPoll, h0, h1, hpos]

theorem poll_idle (push : Trace) (s : MState)
    (h0 : s.powerPressedStartTime = 0) (h1 : push s.now = Level.HIGH) :
    buttonPoll push s = LoopResult.next s := by
  simp [buttonPoll, h0, h1]

theorem run_succ (push : Trace) (s : MState) (k : Nat) :
    run push s (k + 1) =
      match run push s k with
      | LoopResult.next s' => buttonPoll push s'
      | LoopResult.halted s' => LoopResult.halted s' := rfl

theorem run_add (push : Trace) (s : MState) (a b : Nat) :
    run push s (a + b) =
      match run push s a with
      | LoopResult.next s' => run push s' b
      | LoopResult.halted s' => LoopResult.halted s' := by
  induction b with
  | zero =>
    cases h : run push s a with
    | next s' => simp [run, h]
    | halted s' => simp [run, h]
  | succ b ih =>
    rw [show a + (b + 1) = (a + b) + 1 by omega, run_succ, ih]
    cases h : run push s a with
    | next s' => rfl
    | halted s' => rfl

/-! ## Lemmas about the startup confirmation loop -/

theorem confirmLoopFrom_le (push : Trace) (boot : Nat) :
    ∀ i, i ≤ 5 → confirmLoopFrom push boot i ≤ boot + 600 := by
  intro i
  induction i using confirmLoopFrom.induct push boot with
  | case1 i h1 h2 =>
    intro hi
    rw [confirmLoopFrom]
    simp only [h1, if_pos h2, if_pos]
    omega
  | case2 i h1 h2 ih =>
    intro hi
    rw [confirmLoopFrom]
    simp only [h1, if_pos, if_neg h2]
    exact ih (by omega)
  | case3 i h1 =>
    intro hi
    rw [confirmLoopFrom]
    simp only [if_neg h1]
    omega

theorem confirmLoopFrom_ge (push : Trace) (boot : Nat) :
    ∀ i, boot ≤ confirmLoopFrom push boot i := by
  intro i
  induction i using confirmLoopFrom.induct push boot with
  | case1 i h1 h2 =>
    rw [confirmLoopFrom]
    simp only [h1, if_pos h2, if_pos]
    omega
  | case2 i h1 h2 ih =>
    rw [confirmLoopFrom]
    simp only [h1, if_pos, if_neg h2]
    exact ih
  | case3 i h1 =>
    rw [confirmLoopFrom]
    simp only [if_neg h1]
    omega

theorem confirmLoopFrom_first_high (push : Trace) (boot i : Nat) (hi : i ≤ 5)
    (hhigh : push (boot + 100 * i) = Level.HIGH)
    (hlow : ∀ j, j < i → push (boot + 100 * j) = Level.LOW) :
    ∀ m, m ≤ i → confirmLoopFrom push boot m = boot + 100 * i := by
  intro m
  induction m using confirmLoopFrom.induct push boot with
  | case1 m h1 h2 =>
    intro hm
    exfalso
    rcases Nat.lt_or_ge m i with hlt | hge
    · omega
    · have : m = i := by omega
      rw [this, hhigh] at h1
      exact Level.noConfusion h1
  | case2 m h1 h2 ih =>
    intro hm
    have hmi : m < i := by
      rcases Nat.lt_or_ge m i with hlt | hge
      · exact hlt
      · have : m = i := by omega
        rw [this, hhigh] at h1
        exact Level.noConfusion h1
    rw [confirmLoopFrom]
    simp only [h1, if_pos, if_neg h2]
    exact ih (by omega)
  | case3 m h1 =>
    intro hm
    have : m = i := by
      rcases Nat.lt_or_ge m i with hlt | hge
      · rw [hlow m hlt] at h1; simp at h1
      · omega
    rw [confirmLoopFrom, this]
    simp only [hhigh]
    simp

theorem confirmLoopFrom_all_low (push : Trace) (boot : Nat)
    (hlow : ∀ j, j ≤ 5 → push (boot + 100 * j) = Level.LOW) :
    ∀ m, m ≤ 5 → confirmLoopFrom push boot m = boot + 600 := by
  intro m
  induction m using confirmLoopFrom.induct push boot with
  | case1 m h1 h2 =>
    intro hm
    have hm5 : m = 5 := by omega
    subst hm5
    rw [confirmLoopFrom]
    simp [h1]
  | case2 m h1 h2 ih =>
    intro hm
    rw [confirmLoopFrom]
    simp only [h1, if_pos, if_neg h2]
    exact ih (by omega)
  | case3 m h1 =>
    intro hm
    rw [hlow m hm] at h1
    exact absurd h1 (by simp)

/-! ## Lemmas about the lock-mode wait loops -/

theorem lockWaitPress_spec (push : Trace) :
    ∀ fuel now t, lockWaitPress push fuel now = some t →
      now ≤ t ∧ push t = Level.LOW ∧ ∀ τ, now ≤ τ → τ < t → push τ = Level.HIGH := by
  intro fuel
  induction fuel with
  | zero => intro now t h; exact absurd h (by simp [lockWaitPress])
  | succ fuel ih =>
    intro now t h
    rw [lockWaitPress] at h
    by_cases hl : push now = Level.LOW
    · rw [if_pos hl] at h
      cases h
      exact ⟨Nat.le_refl _, hl, fun τ h1 h2 => absurd (Nat.lt_of_le_of_lt h1 h2) (Nat.lt_irrefl _)⟩
    · rw [if_neg hl] at h
      obtain ⟨h1, h2, h3⟩ := ih (now + 1) t h
      refine ⟨by omega, h2, fun τ hτ1 hτ2 => ?_⟩
      rcases Nat.eq_or_lt_of_le hτ1 with heq | hlt
      · rw [← heq]
        cases hp : push now with
        | LOW => exact absurd hp hl
        | HIGH => rfl
      · exact h3 τ (by omega) hτ2

theorem lockWaitRelease_spec (push : Trace) :
    ∀ fuel now r, lockWaitRelease push fuel now = some r →
      now ≤ r ∧ push r = Level.HIGH ∧ ∀ τ, now ≤ τ → τ < r → push τ = Level.LOW := by
  intro fuel
  induction fuel with
  | zero => intro now r h; exact absurd h (by simp [lockWaitRelease])
  | succ fuel ih =>
    intro now r h
    rw [lockWaitRelease] at h
    by_cases hl : push now = Level.HIGH
    · rw [if_pos hl] at h
      cases h
      exact ⟨Nat.le_refl _, hl, fun τ h1 h2 => absurd (Nat.lt_of_le_of_lt h1 h2) (Nat.lt_irrefl _)⟩
    · rw [if_neg hl] at h
      obtain ⟨h1, h2, h3⟩ := ih (now + 1) r h
      refine ⟨by omega, h2, fun τ hτ1 hτ2 => ?_⟩
      rcases Nat.eq_or_lt_of_le hτ1 with heq | hlt
      · rw [← heq]
        cases hp : push now with
        | LOW => rfl
        | HIGH => exact absurd hp hl
      · exact h3 τ (by omega) hτ2

/-! ## Claim theorems -/

/-- C1 (code evaluated at the failing input): with the button pressed at
every instant and the press timer started at ms 20, the poll whose re-sample
observes a held duration of exactly 2000 ms (poll 101, re-sampling at ms 2020
with the timer at 20) does NOT trigger power-down — line 136 tests
`millis() - powerPressedStartTime > 2000` strictly, although its own comment
says "held for >= 2 seconds".  Power-down fires only on the next poll, at an
observed duration of 2020 ms. -/
theorem powerDown_not_at_exactly_2000 :
    run alwaysPressed ⟨0, 0, false, true⟩ 100 = LoopResult.next ⟨2000, 20, false, true⟩ ∧
    2000 + debounceDelay - 20 = 2000 ∧
    run alwaysPressed ⟨0, 0, false, true⟩ 101 = LoopResult.next ⟨2020, 20, false, true⟩ ∧
    run alwaysPressed ⟨0, 0, false, true⟩ 102 = LoopResult.halted ⟨2040, 2040, true, false⟩ := by
  refine ⟨by decide, by decide, by decide, by decide⟩

/-- C2: during startup confirmation, if the button is first observed released
at sample `i ≤ 4` (so the measured held duration `100 * i` is below 500 ms),
`setup()` calls `powerDown()` immediately: the OFF output is asserted and
normal operation is never entered. -/
theorem startup_tap_powers_down (push : Trace) (boot i : Nat) (hi : i ≤ 4)
    (hhigh : push (boot + 100 * i) = Level.HIGH)
    (hlow : ∀ j, j < i → push (boot + 100 * j) = Level.LOW) :
    setup push boot =
      SetupResult.poweredDown ⟨boot + 100 * i, boot + 100 * i, true, false⟩ ∧
    100 * i < 500 := by
  have hex : confirmLoopFrom push boot 0 = boot + 100 * i :=
    confirmLoopFrom_first_high push boot i (by omega) hhigh hlow 0 (Nat.zero_le _)
  constructor
  · simp only [setup, hex]
    rw [if_pos (by omega)]
    rfl
  · omega

/-- Witness for C2: a press released between ms 100 and ms 200 after boot
(first released sample `i = 2`, measured duration 200 ms) powers down. -/
theorem startup_tap_powers_down_witness :
    setup tapTrace 0 = SetupResult.poweredDown ⟨200, 200, true, false⟩ ∧
    (200 : Nat) < 500 := by
  have h := startup_tap_powers_down tapTrace 0 2 (by omega) (by decide)
    (by decide)
  exact ⟨h.1, by omega⟩

/-- C3: during startup confirmation, if the button still reads pressed at
every sample through the 500 ms one, `setup()` proceeds to normal operation:
the result is `running`, with `powerPressedStartTime` reset to the unset
value 0 (line 70), OFF not asserted and the status LED on. -/
theorem startup_hold_enters_running (push : Trace) (boot : Nat)
    (hlow : ∀ j, j ≤ 5 → push (boot + 100 * j) = Level.LOW) :
    setup push boot = SetupResult.running ⟨boot + 600, 0, false, true⟩ := by
  have hex : confirmLoopFrom push boot 0 = boot + 600 :=
    confirmLoopFrom_all_low push boot hlow 0 (by omega)
  simp only [setup, hex]
  rw [if_neg (by omega)]

/-- Witness for C3: a button held at every instant enters normal operation at
ms 600 with the press timer unset. -/
theorem startup_hold_enters_running_witness :
    setup alwaysPressed 0 = SetupResult.running ⟨600, 0, false, true⟩ :=
  startup_hold_enters_running alwaysPressed 0 (fun _ _ => rfl)

/-- C7: `powerDown()` is terminal.  On entry the OFF output is asserted; the
guard of its `while (1)` loop is identically true, so control never leaves;
and after any number `k` of iterations of the loop body the state is
unchanged except that time has advanced by `k` ms — OFF stays asserted and no
new action is produced, whatever the inputs do. -/
theorem powerDown_terminal (s : MState) (k : Nat) :
    (powerDown s).offHigh = true ∧ powerDownLoopCond = true ∧
    powerDownStep^[k] (powerDown s) =
      { now := s.now + k, powerPressedStartTime := s.now,
        offHigh := true, statLed := false } := by
  refine ⟨rfl, rfl, ?_⟩
  induction k with
  | zero => simp [powerDown]
  | succ k ih =>
    rw [Function.iterate_succ_apply', ih]
    rfl

/-- C8: during normal operation a single console byte `'z'` forces an
immediate power-down: `loop()` calls `powerDown()` (lines 91-95), asserting
the OFF output. -/
theorem serial_z_powers_down (push : Trace) (fuel₁ fuel₂ : Nat) (s : MState) :
    loopOnce push fuel₁ fuel₂ (some 'z') s =
      some (LoopResult.halted (powerDown s)) ∧
    (powerDown s).offHigh = true :=
  ⟨by simp [loopOnce], rfl⟩

/-- C9: the startup confirmation loop always terminates, for every input
trace — including a button held pressed forever.  Its exit time is at most
`boot + 600` ms: one 100 ms poll period after the 500 ms threshold. -/
theorem startup_confirm_terminates (push : Trace) (boot : Nat) :
    boot ≤ confirmLoopFrom push boot 0 ∧ confirmLoopFrom push boot 0 ≤ boot + 600 :=
  ⟨confirmLoopFrom_ge push boot 0, confirmLoopFrom_le push boot 0 (by omega)⟩

/-! ## Multi-poll lemmas for a press followed by a release -/

theorem run_one (push : Trace) (s : MState) : run push s 1 = buttonPoll push s := rfl

theorem run_next_shift (push : Trace) (s s' : MState) (k : Nat)
    (h : buttonPoll push s = LoopResult.next s') :
    run push s (k + 1) = run push s' k := by
  have hadd := run_add push s 1 k
  rw [run_one, h] at hadd
  rw [show k + 1 = 1 + k by omega, hadd]

theorem run_idle (push : Trace) (m : Nat) (led : Bool) (R : Nat)
    (hhigh : ∀ t, R ≤ t → push t = Level.HIGH) (hm : R ≤ m) :
    ∀ k, run push ⟨m, 0, false, led⟩ k = LoopResult.next ⟨m, 0, false, led⟩ := by
  intro k
  induction k with
  | zero => rfl
  | succ k ih =>
    rw [run_succ, ih]
    exact poll_idle push ⟨m, 0, false, led⟩ rfl (hhigh m hm)

theorem short_press_poll (push : Trace) (p R : Nat) (led : Bool) (hp : 0 < p)
    (hlow : ∀ t, t < R → push t = Level.LOW)
    (hhigh : ∀ t, R ≤ t → push t = Level.HIGH)
    (hd : R - p < 2000) (m : Nat) :
    (m < R → buttonPoll push ⟨m, p, false, led⟩ =
       LoopResult.next ⟨m + debounceDelay, p, false, led⟩) ∧
    (R ≤ m → buttonPoll push ⟨m, p, false, led⟩ =
       LoopResult.next ⟨m + debounceDelay, 0, false, led⟩) := by
  have hdd : debounceDelay = 20 := rfl
  constructor
  · intro hm
    have h1 : push m = Level.LOW := hlow m hm
    cases h2 : push (m + debounceDelay) with
    | LOW =>
      have hmR : m + debounceDelay < R := by
        by_contra hc
        have hh := hhigh (m + debounceDelay) (by omega)
        rw [hh] at h2
        exact Level.noConfusion h2
      exact poll_hold push ⟨m, p, false, led⟩ (show p ≠ 0 by omega) h1 h2
        (show m + debounceDelay - p ≤ 2000 by omega)
    | HIGH =>
      exact poll_hold_glitch push ⟨m, p, false, led⟩ (show p ≠ 0 by omega) h1 h2
  · intro hm
    exact poll_release push ⟨m, p, false, led⟩ (show p ≠ 0 by omega) (hhigh m hm)

theorem short_press_release_core (push : Trace) (p R : Nat) (led : Bool) (hp : 0 < p)
    (hhigh : ∀ t, R ≤ t → push t = Level.HIGH) (m : Nat) (hm : R ≤ m) :
    (∀ k, ∃ s', run push ⟨m, p, false, led⟩ k = LoopResult.next s' ∧ s'.offHigh = false) ∧
    (∃ k s', run push ⟨m, p, false, led⟩ k = LoopResult.next s' ∧
       s'.powerPressedStartTime = 0 ∧ s'.offHigh = false) := by
  have hstep : buttonPoll push ⟨m, p, false, led⟩ =
      LoopResult.next ⟨m + debounceDelay, 0, false, led⟩ :=
    poll_release push ⟨m, p, false, led⟩ (show p ≠ 0 by omega) (hhigh m hm)
  have hidle := run_idle push (m + debounceDelay) led R hhigh (by omega)
  constructor
  · intro k
    cases k with
    | zero => exact ⟨_, rfl, rfl⟩
    | succ k =>
      rw [run_next_shift push _ _ k hstep, hidle k]
      exact ⟨_, rfl, rfl⟩
  · refine ⟨1, ⟨m + debounceDelay, 0, false, led⟩, ?_, rfl, rfl⟩
    rw [run_one, hstep]

theorem short_press_run (push : Trace) (p R : Nat) (led : Bool) (hp : 0 < p)
    (hlow : ∀ t, t < R → push t = Level.LOW)
    (hhigh : ∀ t, R ≤ t → push t = Level.HIGH)
    (hd : R - p < 2000) :
    ∀ d m, R ≤ m + 20 * d →
      (∀ k, ∃ s', run push ⟨m, p, false, led⟩ k = LoopResult.next s' ∧ s'.offHigh = false) ∧
      (∃ k s', run push ⟨m, p, false, led⟩ k = LoopResult.next s' ∧
         s'.powerPressedStartTime = 0 ∧ s'.offHigh = false) := by
  have hdd : debounceDelay = 20 := rfl
  intro d
  induction d with
  | zero =>
    intro m hm
    exact short_press_release_core push p R led hp hhigh m (by omega)
  | succ d ih =>
    intro m hm
    rcases Nat.lt_or_ge m R with hmR | hmR
    · have hstep := (short_press_poll push p R led hp hlow hhigh hd m).1 hmR
      obtain ⟨hall, hesc⟩ := ih (m + debounceDelay) (by omega)
      constructor
      · intro k
        cases k with
        | zero => exact ⟨_, rfl, rfl⟩
        | succ k =>
          rw [run_next_shift push _ _ k hstep]
          exact hall k
      · obtain ⟨k, s', h1, h2, h3⟩ := hesc
        refine ⟨k + 1, s', ?_, h2, h3⟩
        rw [run_next_shift push _ _ k hstep]
        exact h1
    · exact short_press_release_core push p R led hp hhigh m hmR

/-- C4: during normal operation, a press whose timer started at ms `p` and
whose button is released at ms `R` with a held duration `R - p` below 2000 ms
causes no power action at any poll — the OFF output is never asserted — and
the press timer is eventually reset to the unset value 0. -/
theorem short_press_release_no_action (push : Trace) (p R n : Nat) (led : Bool)
    (hp : 0 < p) (hpn : p ≤ n) (hnR : n < R)
    (hlow : ∀ t, t < R → push t = Level.LOW)
    (hhigh : ∀ t, R ≤ t → push t = Level.HIGH)
    (hd : R - p < 2000) :
    (∀ k, ∃ s', run push ⟨n, p, false, led⟩ k = LoopResult.next s' ∧ s'.offHigh = false) ∧
    (∃ k s', run push ⟨n, p, false, led⟩ k = LoopResult.next s' ∧
       s'.powerPressedStartTime = 0 ∧ s'.offHigh = false) :=
  short_press_run push p R led hp hlow hhigh hd R n (by omega)

/-- Witness for C4: timer started at ms 20, button released at ms 120 (held
100 ms < 2000 ms): the first 7 polls all stay in normal operation with OFF
deasserted, and some poll resets the timer to 0 with OFF still deasserted. -/
theorem short_press_release_no_action_witness :
    (∃ s', run shortPressTrace ⟨20, 20, false, true⟩ 7 = LoopResult.next s' ∧
       s'.offHigh = false) ∧
    (∃ k s', run shortPressTrace ⟨20, 20, false, true⟩ k = LoopResult.next s' ∧
       s'.powerPressedStartTime = 0 ∧ s'.offHigh = false) := by
  have h := short_press_release_no_action shortPressTrace 20 120 20 true
    (by decide) (by decide) (by decide) (by decide)
    (fun t ht => if_neg (Nat.not_lt.mpr ht)) (by decide)
  exact ⟨h.1 7, h.2⟩

/-! ## Invariant lemmas for the press timer -/

theorem poll_high_clears (push : Trace) (s : MState)
    (h1 : push s.now = Level.HIGH) :
    ∀ s'', buttonPoll push s = LoopResult.next s'' →
      s''.powerPressedStartTime = 0 := by
  intro s'' h
  rcases Nat.eq_zero_or_pos s.powerPressedStartTime with h0 | hpos
  · rw [poll_idle push s h0 h1] at h
    cases h
    exact h0
  · rw [poll_release push s (by omega) h1] at h
    cases h
    rfl

theorem poll_preserves_inv (push : Trace) (s : MState)
    (hinv : s.powerPressedStartTime ≠ 0 →
       push s.powerPressedStartTime = Level.LOW ∧ s.powerPressedStartTime ≤ s.now)
    (hoff : s.offHigh = false) :
    (∀ s', buttonPoll push s = LoopResult.next s' →
       (s'.powerPressedStartTime ≠ 0 →
          push s'.powerPressedStartTime = Level.LOW ∧
          s'.powerPressedStartTime ≤ s'.now) ∧
       s'.offHigh = false) ∧
    (∀ s', buttonPoll push s = LoopResult.halted s' →
       s'.powerPressedStartTime = s'.now ∧ s'.offHigh = true) := by
  cases hpn : push s.now with
  | LOW =>
    rcases Nat.eq_zero_or_pos s.powerPressedStartTime with h0 | hpos
    · cases hpd : push (s.now + debounceDelay) with
      | LOW =>
        rw [poll_start push s h0 hpn hpd]
        refine ⟨fun s' h => ?_, fun s' h => LoopResult.noConfusion h⟩
        cases h
        exact ⟨fun _ => ⟨hpd, Nat.le_refl _⟩, hoff⟩
      | HIGH =>
        rw [poll_start_glitch push s h0 hpn hpd]
        refine ⟨fun s' h => ?_, fun s' h => LoopResult.noConfusion h⟩
        cases h
        exact ⟨fun hne => absurd h0 hne, hoff⟩
    · have h0' : s.powerPressedStartTime ≠ 0 := by omega
      cases hpd : push (s.now + debounceDelay) with
      | LOW =>
        rcases Nat.lt_or_ge 2000 (s.now + debounceDelay - s.powerPressedStartTime)
          with hgt | hle
        · rw [poll_trigger push s h0' hpn hpd hgt]
          refine ⟨fun s' h => LoopResult.noConfusion h, fun s' h => ?_⟩
          cases h
          exact ⟨rfl, rfl⟩
        · rw [poll_hold push s h0' hpn hpd hle]
          refine ⟨fun s' h => ?_, fun s' h => LoopResult.noConfusion h⟩
          cases h
          obtain ⟨ha, hb⟩ := hinv h0'
          refine ⟨fun _ => ⟨ha, ?_⟩, hoff⟩
          show s.powerPressedStartTime ≤ s.now + debounceDelay
          omega
      | HIGH =>
        rw [poll_hold_glitch push s h0' hpn hpd]
        refine ⟨fun s' h => ?_, fun s' h => LoopResult.noConfusion h⟩
        cases h
        obtain ⟨ha, hb⟩ := hinv h0'
        refine ⟨fun _ => ⟨ha, ?_⟩, hoff⟩
        show s.powerPressedStartTime ≤ s.now + debounceDelay
        omega
  | HIGH =>
    rcases Nat.eq_zero_or_pos s.powerPressedStartTime with h0 | hpos
    · rw [poll_idle push s h0 hpn]
      refine ⟨fun s' h => ?_, fun s' h => LoopResult.noConfusion h⟩
      cases h
      exact ⟨hinv, hoff⟩
    · rw [poll_release push s (by omega) hpn]
      refine ⟨fun s' h => ?_, fun s' h => LoopResult.noConfusion h⟩
      cases h
      exact ⟨fun hne => absurd rfl hne, hoff⟩

/-- C5 (counterexample): with the button pressed at every instant, the run
from the normal-operation entry state reaches `powerDown()` after 102 polls,
and the power action does NOT clear `powerPressedStartTime` to the unset
value: `powerDown()` (line 165) stamps it with `millis()` = 2040 ≠ 0. -/
theorem powerDown_leaves_timer_stamped :
    run alwaysPressed ⟨0, 0, false, true⟩ 102 =
      LoopResult.halted ⟨2040, 2040, true, false⟩ ∧
    (2040 : Nat) ≠ 0 := ⟨by decide, by decide⟩

/-- C5 (amended): starting from normal-operation entry (timer unset, OFF
deasserted), in every reachable polling state a non-zero
`powerPressedStartTime` holds a past instant at which the input read pressed
(and OFF is still deasserted); a poll whose initial read is released always
leaves the timer cleared; and when `powerDown()` fires it stamps the timer
with the power-down time (`millis()`, not the unset value) and asserts OFF. -/
theorem press_timer_records_pressed (push : Trace) (n0 k : Nat) :
    (∀ s', run push ⟨n0, 0, false, true⟩ k = LoopResult.next s' →
       ((s'.powerPressedStartTime ≠ 0 →
           push s'.powerPressedStartTime = Level.LOW ∧
           s'.powerPressedStartTime ≤ s'.now) ∧
        s'.offHigh = false) ∧
       (push s'.now = Level.HIGH → ∀ s'', buttonPoll push s' = LoopResult.next s'' →
          s''.powerPressedStartTime = 0)) ∧
    (∀ s', run push ⟨n0, 0, false, true⟩ k = LoopResult.halted s' →
       s'.powerPressedStartTime = s'.now ∧ s'.offHigh = true) := by
  induction k with
  | zero =>
    constructor
    · intro s' h
      cases h
      exact ⟨⟨fun hne => absurd rfl hne, rfl⟩,
        fun hh s'' h'' => poll_high_clears push _ hh s'' h''⟩
    · intro s' h
      exact absurd h (by simp [run])
  | succ k ih =>
    obtain ⟨ihn, ihh⟩ := ih
    constructor
    · intro s' h
      rw [run_succ] at h
      cases hk : run push ⟨n0, 0, false, true⟩ k with
      | next s₁ =>
        rw [hk] at h
        have hinv := ihn s₁ hk
        have hpres := poll_preserves_inv push s₁ hinv.1.1 hinv.1.2
        exact ⟨hpres.1 s' h, fun hh s'' h'' => poll_high_clears push s' hh s'' h''⟩
      | halted s₁ =>
        rw [hk] at h
        exact LoopResult.noConfusion h
    · intro s' h
      rw [run_succ] at h
      cases hk : run push ⟨n0, 0, false, true⟩ k with
      | next s₁ =>
        rw [hk] at h
        have hinv := ihn s₁ hk
        exact (poll_preserves_inv push s₁ hinv.1.1 hinv.1.2).2 s' h
      | halted s₁ =>
        rw [hk] at h
        injection h with hs
        exact hs ▸ ihh s₁ hk

/-- Witness for C5 (amended): after one poll of an always-pressed button the
timer holds ms 20, an instant at which the input read pressed and which is
not later than the current time; and the power-down state reached after 102
polls has the timer stamped with the power-down time and OFF asserted. -/
theorem press_timer_records_pressed_witness :
    (alwaysPressed ((⟨20, 20, false, true⟩ : MState).powerPressedStartTime) = Level.LOW ∧
     (⟨20, 20, false, true⟩ : MState).powerPressedStartTime ≤
       (⟨20, 20, false, true⟩ : MState).now) ∧
    ((⟨2040, 2040, true, false⟩ : MState).powerPressedStartTime =
       (⟨2040, 2040, true, false⟩ : MState).now ∧
     (⟨2040, 2040, true, false⟩ : MState).offHigh = true) := by
  constructor
  · exact ((press_timer_records_pressed alwaysPressed 0 1).1
      ⟨20, 20, false, true⟩ (by decide)).1.1 (by decide)
  · exact (press_timer_records_pressed alwaysPressed 0 102).2
      ⟨2040, 2040, true, false⟩ (by decide)

/-- C6 (counterexample): the debounce does not filter every sub-settle
flicker.  With the button pressed throughout except for a 1 ms release
glitch at ms 1000 (shorter than the 20 ms settle interval: the input is back
at pressed when re-sampled at ms 1020), the poll that first reads the glitch
resets the running press timer from 100 to the unset value 0 — the reset at
line 152 sits outside the debounce re-sample guard — so the flicker IS
treated as a state change. -/
theorem release_glitch_resets_timer :
    glitchTrace 1000 = Level.HIGH ∧
    glitchTrace 999 = Level.LOW ∧ glitchTrace 1001 = Level.LOW ∧
    glitchTrace 1020 = Level.LOW ∧
    run glitchTrace ⟨80, 0, false, true⟩ 46 = LoopResult.next ⟨1000, 100, false, true⟩ ∧
    run glitchTrace ⟨80, 0, false, true⟩ 47 = LoopResult.next ⟨1020, 0, false, true⟩ := by
  refine ⟨by decide, by decide, by decide, by decide, by decide, by decide⟩

/-- C6 (amended): a flicker observed at the debounce re-sample is filtered —
it neither starts the press timer (low-with-no-timer branch), nor clears the
timer or triggers power-down (low-with-timer branch).  But a release flicker
observed at a poll's initial read while the timer runs resets the timer
unconditionally: line 152 executes whatever the re-sample shows. -/
theorem debounce_glitch_behavior (push : Trace) (s : MState) :
    (s.powerPressedStartTime = 0 → push s.now = Level.LOW →
       push (s.now + debounceDelay) = Level.HIGH →
       buttonPoll push s = LoopResult.next { s with now := s.now + debounceDelay }) ∧
    (s.powerPressedStartTime ≠ 0 → push s.now = Level.LOW →
       push (s.now + debounceDelay) = Level.HIGH →
       buttonPoll push s = LoopResult.next { s with now := s.now + debounceDelay }) ∧
    (s.powerPressedStartTime ≠ 0 → push s.now = Level.HIGH →
       buttonPoll push s =
         LoopResult.next { s with now := s.now + debounceDelay,
                                  powerPressedStartTime := 0 }) :=
  ⟨fun h0 h1 h2 => poll_start_glitch push s h0 h1 h2,
   fun h0 h1 h2 => poll_hold_glitch push s h0 h1 h2,
   fun h0 h1 => poll_release push s h0 h1⟩

/-- Witness for C6 (amended): with a release glitch at ms 20, a poll at ms 0
with no timer does not start it; a poll at ms 0 with the timer at 5 keeps
it; a poll at ms 20 (initial read sees the glitch) resets the timer to 0. -/
theorem debounce_glitch_behavior_witness :
    buttonPoll glitch20Trace ⟨0, 0, false, true⟩ = LoopResult.next ⟨20, 0, false, true⟩ ∧
    buttonPoll glitch20Trace ⟨0, 5, false, true⟩ = LoopResult.next ⟨20, 5, false, true⟩ ∧
    buttonPoll glitch20Trace ⟨20, 5, false, true⟩ = LoopResult.next ⟨40, 0, false, true⟩ := by
  refine ⟨?_, ?_, ?_⟩
  · exact (debounce_glitch_behavior glitch20Trace ⟨0, 0, false, true⟩).1
      rfl (by decide) (by decide)
  · exact (debounce_glitch_behavior glitch20Trace ⟨0, 5, false, true⟩).2.1
      (by decide) (by decide) (by decide)
  · exact (debounce_glitch_behavior glitch20Trace ⟨20, 5, false, true⟩).2.2
      (by decide) (by decide)

/-- C10: the `'r'` lock mode is escapable.  If the wait-for-press loop exits
at instant `t` and the wait-for-release loop exits at instant `r`, then `t`
is the first instant from the command at which the button reads pressed (the
timing starts only there), `r > t` is an instant at which it reads released,
and the handler returns with the press timer reset to the unset value 0 and
the OFF output still deasserted, falling through to the normal button poll
of the same `loop()` pass. -/
theorem lock_mode_escapable (push : Trace) (fuel₁ fuel₂ : Nat) (s : MState)
    (hoff : s.offHigh = false) (t r : Nat)
    (ht : lockWaitPress push fuel₁ s.now = some t)
    (hr : lockWaitRelease push fuel₂ (t + 1) = some r) :
    push t = Level.LOW ∧
    (∀ τ, s.now ≤ τ → τ < t → push τ = Level.HIGH) ∧
    t < r ∧ push r = Level.HIGH ∧
    serialRCmd push fuel₁ fuel₂ s =
      some { s with now := r, powerPressedStartTime := 0 } ∧
    ({ s with now := r, powerPressedStartTime := 0 } : MState).offHigh = false ∧
    loopOnce push fuel₁ fuel₂ (some 'r') s =
      some (buttonPoll push { s with now := r, powerPressedStartTime := 0 }) := by
  obtain ⟨ht1, ht2, ht3⟩ := lockWaitPress_spec push fuel₁ s.now t ht
  obtain ⟨hr1, hr2, hr3⟩ := lockWaitRelease_spec push fuel₂ (t + 1) r hr
  have hcmd : serialRCmd push fuel₁ fuel₂ s =
      some { s with now := r, powerPressedStartTime := 0 } := by
    simp [serialRCmd, ht, hr]
  refine ⟨ht2, ht3, by omega, hr2, hcmd, hoff, ?_⟩
  simp [loopOnce, hcmd]

/-- Witness for C10: button released until ms 5, pressed during [5, 9),
released from ms 9: the press is first observed at ms 5, the handler exits
at ms 9 with the timer unset and control falls through to the button poll. -/
theorem lock_mode_escapable_witness :
    lockTrace 5 = Level.LOW ∧
    serialRCmd lockTrace 100 100 ⟨0, 0, false, true⟩ = some ⟨9, 0, false, true⟩ ∧
    loopOnce lockTrace 100 100 (some 'r') ⟨0, 0, false, true⟩ =
      some (buttonPoll lockTrace ⟨9, 0, false, true⟩) := by
  have h := lock_mode_escapable lockTrace 100 100 ⟨0, 0, false, true⟩ rfl 5 9
    (by decide) (by decide)
  exact ⟨h.1, h.2.2.2.2.1, h.2.2.2.2.2.2⟩
